import Mathlib

/-!
Verification of the work_timer task/folder domain core (src/main.rs).

The Rust code is shallowly embedded: tasks are records, the `HashMap`s are
association lists with unique keys, wall-clock readings (`Local::now()`) are
explicit `Int` inputs, the working directory is a list of file names, and the
JSON persistence files are `saved_*` snapshot fields updated by the
`save_tasks` / `save_folder_styles` models.  `i64` arithmetic is modelled by
`Int` (the durations involved never approach the 64-bit range, so wrap-around
is not modelled).
-/

namespace WorkTimerModel

/-- Model of `sanitize_filename` (main.rs:9): each character of the fixed
invalid set is replaced by an underscore, all others pass through. -/
def invalidChars : List Char := ['/', '\\', '?', '%', '*', ':', '|', '\"', '<', '>', '.', ' ']

def sanitize_filename (name : String) : String :=
  String.mk (name.data.map (fun c => if invalidChars.contains c then '_' else c))

/-- Model of Rust `str::ends_with ".csv"` on file names. -/
def endsWithCsv (name : String) : Bool :=
  ".csv".data.isSuffixOf name.data

/-- Lexicographic comparison of char lists by code point, the order used by
Rust's `Ord for String` (UTF-8 byte order coincides with code-point order). -/
def charListLe : List Char → List Char → Bool
  | [], _ => true
  | _ :: _, [] => false
  | a :: as, b :: bs =>
    if a.toNat < b.toNat then true
    else if b.toNat < a.toNat then false
    else charListLe as bs

/-- The string order by which `Vec::sort` sorts the folder list. -/
def strLe (a b : String) : Prop := charListLe a.data b.data = true

instance : DecidableRel strLe :=
  fun a b => inferInstanceAs (Decidable (charListLe a.data b.data = true))

/-- Model of Rust `Iterator::position`: index of the first element satisfying
the predicate. -/
def position (p : α → Bool) : List α → Option Nat
  | [] => none
  | x :: xs => if p x then some 0 else (position p xs).map (· + 1)

/-- Insert into an association-list model of a `HashMap` (replaces any
existing binding for the key). -/
def assocInsert (k : String) (v : α) (l : List (String × α)) : List (String × α) :=
  (k, v) :: l.filter (fun p => !(p.1 == k))

/-- Remove a key from an association-list model of a `HashMap`. -/
def assocRemove (k : String) (l : List (String × α)) : List (String × α) :=
  l.filter (fun p => !(p.1 == k))

/-- Model of Rust's `{:02}` integer formatting. -/
def pad2 (n : Int) : String :=
  let s := toString n
  if s.length < 2 then "0" ++ s else s

/-- Model of `format_duration` (main.rs:67, 620): truncating division into
`HH:MM:SS` fields (`Int.tdiv`/`Int.tmod` match Rust `i64` `/` and `%`). -/
def format_duration (duration : Int) : String :=
  let hours := Int.tdiv duration 3600
  let minutes := Int.tdiv (Int.tmod duration 3600) 60
  let seconds := Int.tmod duration 60
  pad2 hours ++ ":" ++ pad2 minutes ++ ":" ++ pad2 seconds

/-- The `Task` struct (main.rs:17). `start_time` timestamps are `Int` seconds. -/
structure Task where
  id : String
  description : String
  folder : Option String
  total_duration : Int
  start_time : Option Int
  is_paused : Bool
  deriving DecidableEq, Repr

/-- `Task::new` (main.rs:27); the generated UUID is an input here. -/
def Task.new (id description : String) : Task :=
  { id := id, description := description, folder := none,
    total_duration := 0, start_time := none, is_paused := false }

/-- `Task::start` (main.rs:38). -/
def Task.start (t : Task) (now : Int) : Task :=
  if t.start_time.isNone && !t.is_paused then { t with start_time := some now } else t

/-- `Task::pause` (main.rs:44). -/
def Task.pause (t : Task) (now : Int) : Task :=
  match t.start_time with
  | some s =>
    { t with total_duration := t.total_duration + (now - s),
             start_time := none, is_paused := true }
  | none => t

/-- `Task::resume` (main.rs:52). -/
def Task.resume (t : Task) (now : Int) : Task :=
  if t.is_paused then { t with start_time := some now, is_paused := false } else t

/-- `Task::get_current_duration` (main.rs:59). -/
def Task.get_current_duration (t : Task) (now : Int) : Int :=
  t.total_duration + (match t.start_time with | some s => now - s | none => 0)

/-- The completion test used by `display_task` and `handle_task_action`
(main.rs:491, 561): `total_duration > 0 && start_time.is_none() && !is_paused`. -/
def Task.is_completed (t : Task) : Bool :=
  decide (0 < t.total_duration) && t.start_time.isNone && !t.is_paused

/-- The `TaskAction::Complete` branch of `handle_task_action` (main.rs:559). -/
def Task.toggle_complete (t : Task) (now : Int) : Task :=
  if t.is_completed then { t with is_paused := true }
  else
    let t1 := if t.start_time.isSome then t.pause now else t
    { t1 with is_paused := false }

/-- The per-task mutations reachable from the UI, with the wall clock as an
explicit input. -/
inductive TaskOp where
  | start (now : Int)
  | pause (now : Int)
  | resume (now : Int)
  | toggleComplete (now : Int)
  | moveToFolder (f : Option String)
  deriving DecidableEq, Repr

def applyTaskOp (op : TaskOp) (t : Task) : Task :=
  match op with
  | .start now => t.start now
  | .pause now => t.pause now
  | .resume now => t.resume now
  | .toggleComplete now => t.toggle_complete now
  | .moveToFolder f => { t with folder := f }

def runOps (ops : List TaskOp) (t : Task) : Task :=
  ops.foldl (fun a op => applyTaskOp op a) t

/-- The running/paused exclusivity invariant of §3 of the spec. -/
def taskInv (t : Task) : Prop := (t.start_time.isSome && t.is_paused) = false

/-- Clock sanity for one operation: any `now` fed to a transition that reads
the recorded `start_time` is at least that start time (true of a monotone
wall clock). -/
def opNowOK (op : TaskOp) (t : Task) : Prop :=
  match op with
  | .pause now => ∀ u, t.start_time = some u → u ≤ now
  | .toggleComplete now => ∀ u, t.start_time = some u → u ≤ now
  | _ => True

/-- The `FolderStyle` struct (main.rs:76). -/
structure FolderStyle where
  name : String
  deriving DecidableEq, Repr

/-- The domain-relevant fields of the `WorkTimer` struct (main.rs:104),
together with a model of its environment: `files` is the set of file names in
the working directory, and the `saved_*` fields are the contents of the three
JSON persistence files, rewritten by `save_tasks` / `save_folder_styles`. -/
structure WorkTimer where
  tasks : List (String × Task)
  folders : List String
  folder_styles : List (String × FolderStyle)
  selected_folder : Option String
  focused_folder_index : Option Nat
  focused_task_index : Option Nat
  files : List String
  saved_tasks : List (String × Task)
  saved_folders : List String
  saved_styles : List (String × FolderStyle)
  deriving DecidableEq, Repr

/-- `WorkTimer::save_tasks` (main.rs:237): rewrites the task snapshot and the
folder-order snapshot. -/
def save_tasks (s : WorkTimer) : WorkTimer :=
  { s with saved_tasks := s.tasks, saved_folders := s.folders }

/-- `WorkTimer::save_folder_styles` (main.rs:425). -/
def save_folder_styles (s : WorkTimer) : WorkTimer :=
  { s with saved_styles := s.folder_styles }

/-- `WorkTimer::add_task` (main.rs:201); the fresh UUID is an input. -/
def add_task (s : WorkTimer) (id description : String) : WorkTimer :=
  let t := { Task.new id description with folder := s.selected_folder }
  save_tasks { s with tasks := assocInsert id t s.tasks }

/-- `WorkTimer::add_folder` (main.rs:210). `List.insertionSort strLe` models
`Vec::sort`: both are stable sorts by the same total order, hence produce the
same list. -/
def add_folder (s : WorkTimer) (name : String) : WorkTimer :=
  if !(name == "") && !(s.folders.contains name) then
    let folders2 := List.insertionSort strLe (s.folders ++ [name])
    save_folder_styles (save_tasks
      { s with
        folder_styles := assocInsert name ⟨name⟩ s.folder_styles,
        folders := folders2,
        selected_folder := if s.selected_folder.isNone then some name else s.selected_folder,
        focused_folder_index :=
          match position (fun f => f == name) folders2 with
          | some i => some i
          | none => s.focused_folder_index,
        focused_task_index :=
          match position (fun f => f == name) folders2 with
          | some _ => none
          | none => s.focused_task_index })
  else s

/-- `WorkTimer::move_task_to_folder` (main.rs:230). -/
def move_task_to_folder (s : WorkTimer) (task_id : String) (folder : Option String) :
    WorkTimer :=
  if s.tasks.any (fun p => p.1 == task_id) then
    save_tasks
      { s with
        tasks := s.tasks.map (fun p =>
          if p.1 == task_id then (p.1, { p.2 with folder := folder }) else p) }
  else s

/-- The confirmed delete-task branch of `WorkTimer::update` (main.rs:1030):
`self.tasks.remove(&task_id); self.save_tasks();` — note that no file is
touched. -/
def delete_task (s : WorkTimer) (task_id : String) : WorkTimer :=
  save_tasks { s with tasks := assocRemove task_id s.tasks }

/-- `WorkTimer::clear_folder` (main.rs:386): removes the folder's export CSV
and the per-task CSVs of its tasks, drops those tasks, then removes the folder
itself from the ordered list and the style map, fixes up selection and focus,
and saves. -/
def clear_folder (s : WorkTimer) (folder_name : String) : WorkTimer :=
  let files1 := s.files.erase ("folder_" ++ sanitize_filename folder_name ++ ".csv")
  let doomed := s.tasks.filter (fun p => p.2.folder == some folder_name)
  let files2 := doomed.foldl
    (fun fs p => fs.erase (sanitize_filename p.2.description ++ ".csv")) files1
  let s1 := { s with
    files := files2,
    tasks := s.tasks.filter (fun p => !(p.2.folder == some folder_name)) }
  match position (fun f => f == folder_name) s.folders with
  | some i =>
    let folders2 := s1.folders.eraseIdx i
    let s2 :=
      { s1 with
        folders := folders2,
        folder_styles := assocRemove folder_name s1.folder_styles,
        selected_folder :=
          if s1.selected_folder == some folder_name then folders2.head?
          else s1.selected_folder,
        focused_folder_index :=
          match s1.focused_folder_index with
          | some j =>
            if folders2.length ≤ j then
              if folders2.isEmpty then none else some (folders2.length - 1)
            else some j
          | none => none }
    save_folder_styles (save_tasks s2)
  | none => s1

/-- `WorkTimer::clear_all_tasks` (main.rs:262): empties the task map, saves,
removes `work_timer_export.csv`, then removes every file of the working
directory whose name ends in `.csv`. -/
def clear_all_tasks (s : WorkTimer) : WorkTimer :=
  let s1 := save_tasks { s with tasks := [] }
  let files1 := s1.files.erase "work_timer_export.csv"
  { s1 with files := files1.filter (fun n => !(endsWithCsv n)) }

/-- `WorkTimer::clear_all_folders` (main.rs:588). -/
def clear_all_folders (s : WorkTimer) : WorkTimer :=
  save_folder_styles (save_tasks
    { s with folders := [], folder_styles := [], selected_folder := none,
             focused_folder_index := none, focused_task_index := none })

/-- The folder drag-reorder handler of `WorkTimer::update` (main.rs:1489,
1608): removes the dragged folder and reinserts it at the drop position
(clamped to the list length), then saves. -/
def reorder_folder (s : WorkTimer) (folder_name : String) (drop_idx : Nat) : WorkTimer :=
  match position (fun f => f == folder_name) s.folders with
  | some i =>
    let rest := s.folders.eraseIdx i
    let j := min drop_idx rest.length
    save_tasks
      { s with
        folders := rest.insertIdx j folder_name,
        focused_folder_index :=
          if s.focused_folder_index == some i then some j else s.focused_folder_index }
  | none => s

/-- The CSV header row written by all three export functions. -/
def csvHeader : List String := ["Task", "Project", "Duration (HH:MM:SS)", "Status"]

/-- The status string written by `export_task_to_csv`, `export_to_csv` and
`export_folder_to_csv` (main.rs:303, 331, 365). -/
def Task.export_status (t : Task) : String :=
  if t.start_time.isSome then "Running" else if t.is_paused then "Paused" else "Stopped"

/-- A data row of `export_task_to_csv` / `export_to_csv` (main.rs:311, 339). -/
def Task.csv_row (t : Task) (now : Int) : List String :=
  [t.description, t.folder.getD "Uncategorized",
   format_duration (t.get_current_duration now), t.export_status]

/-- The rows written by `export_task_to_csv` (main.rs:294), filename aside. -/
def export_task_to_csv_rows (t : Task) (now : Int) : List (List String) :=
  [csvHeader, t.csv_row now]

/-- The rows written by `export_to_csv` (main.rs:321). -/
def export_to_csv_rows (s : WorkTimer) (now : Int) : List (List String) :=
  csvHeader :: s.tasks.map (fun p => p.2.csv_row now)

/-- A data row of `export_folder_to_csv` (main.rs:373): the Project column is
the folder name itself. -/
def folder_csv_row (t : Task) (folder_name : String) (now : Int) : List String :=
  [t.description, folder_name, format_duration (t.get_current_duration now),
   t.export_status]

/-- The rows written by `export_folder_to_csv` (main.rs:351). -/
def export_folder_to_csv_rows (s : WorkTimer) (folder_name : String) (now : Int) :
    List (List String) :=
  csvHeader ::
    (s.tasks.filter (fun p => p.2.folder == some folder_name)).map
      (fun p => folder_csv_row p.2 folder_name now)

/-- The store-level mutating commands named by §4.4 of the spec. -/
inductive StoreOp where
  | createTask (id description : String)
  | deleteTask (id : String)
  | moveTask (id : String) (folder : Option String)
  | addFolder (name : String)
  | clearFolder (name : String)
  | clearAllTasks
  | clearAllFolders
  | reorderFolder (name : String) (drop_idx : Nat)
  deriving DecidableEq, Repr

def applyStoreOp (op : StoreOp) (s : WorkTimer) : WorkTimer :=
  match op with
  | .createTask id d => add_task s id d
  | .deleteTask id => delete_task s id
  | .moveTask id f => move_task_to_folder s id f
  | .addFolder n => add_folder s n
  | .clearFolder n => clear_folder s n
  | .clearAllTasks => clear_all_tasks s
  | .clearAllFolders => clear_all_folders s
  | .reorderFolder n i => reorder_folder s n i

/-- The durable snapshot of the task collection and the folder list agrees
with the in-memory state. -/
def synced (s : WorkTimer) : Prop :=
  s.saved_tasks = s.tasks ∧ s.saved_folders = s.folders

/-! Concrete sample values used by the witnesses and counterexamples. -/

def tIdle : Task := Task.new "t1" "alpha"

def tRunning : Task := { tIdle with start_time := some 3 }

def tPaused : Task := { Task.new "t2" "beta" with is_paused := true, total_duration := 4 }

def tDone : Task := { Task.new "t3" "gamma" with total_duration := 5 }

def sampleStyles : List (String × FolderStyle) := [("Home", ⟨"Home"⟩), ("Work", ⟨"Work"⟩)]

def sampleTasks : List (String × Task) :=
  [("t1", { tRunning with folder := some "Work" }), ("t2", tPaused)]

def sample : WorkTimer :=
  { tasks := sampleTasks,
    folders := ["Home", "Work"],
    folder_styles := sampleStyles,
    selected_folder := some "Home",
    focused_folder_index := some 0,
    focused_task_index := none,
    files := ["alpha.csv", "notes.txt"],
    saved_tasks := sampleTasks,
    saved_folders := ["Home", "Work"],
    saved_styles := sampleStyles }

def sFile : WorkTimer :=
  { sample with tasks := [("t3", tDone)], files := ["gamma.csv", "readme.txt"],
                saved_tasks := [("t3", tDone)] }

/-! General lemmas about the embedded operations. -/

theorem position_eq_some_of_mem [BEq α] [LawfulBEq α] {a : α} {l : List α}
    (h : a ∈ l) : ∃ i, position (fun x => x == a) l = some i := by
  induction l with
  | nil => cases h
  | cons x xs ih =>
    by_cases hx : x == a
    · exact ⟨0, by simp [position, hx]⟩
    · rcases List.mem_cons.mp h with h1 | h1
      · exact absurd (beq_iff_eq.mpr h1.symm) hx
      · rcases ih h1 with ⟨i, hi⟩
        exact ⟨i + 1, by simp [position, hx, hi]⟩

theorem position_eq_none_of_not_mem [BEq α] [LawfulBEq α] {a : α} {l : List α}
    (h : a ∉ l) : position (fun x => x == a) l = none := by
  induction l with
  | nil => rfl
  | cons x xs ih =>
    simp only [List.mem_cons, not_or] at h
    simp [position, ih h.2, beq_eq_false_iff_ne, Ne.symm h.1]

theorem eraseIdx_position_eq_erase [BEq α] [LawfulBEq α] {a : α} {l : List α} {i : Nat}
    (h : position (fun x => x == a) l = some i) : l.eraseIdx i = l.erase a := by
  induction l generalizing i with
  | nil => simp [position] at h
  | cons x xs ih =>
    by_cases hx : x == a
    · simp only [position, hx, if_true] at h
      cases h
      simp [List.eraseIdx, List.erase_cons, hx]
    · simp only [position, hx, Bool.false_eq_true, if_false, Option.map_eq_some'] at h
      rcases h with ⟨j, hj, hij⟩
      subst hij
      simp [List.eraseIdx, List.erase_cons, hx, ih hj]

theorem charListLe_total (as bs : List Char) :
    charListLe as bs = true ∨ charListLe bs as = true := by
  induction as generalizing bs with
  | nil => left; rfl
  | cons a as ih =>
    cases bs with
    | nil => right; rfl
    | cons b bs =>
      by_cases hab : a.toNat < b.toNat
      · left; simp [charListLe, hab]
      · by_cases hba : b.toNat < a.toNat
        · right; simp [charListLe, hba]
        · rcases ih bs with h | h
          · left; simp [charListLe, hab, hba, h]
          · right; simp [charListLe, hab, hba, h]

theorem charListLe_trans {as bs cs : List Char}
    (h1 : charListLe as bs = true) (h2 : charListLe bs cs = true) :
    charListLe as cs = true := by
  induction as generalizing bs cs with
  | nil => rfl
  | cons a as ih =>
    cases bs with
    | nil => simp [charListLe] at h1
    | cons b bs =>
      cases cs with
      | nil => simp [charListLe] at h2
      | cons c cs =>
        simp only [charListLe] at h1 h2 ⊢
        by_cases hab : a.toNat < b.toNat
        · by_cases hbc : b.toNat < c.toNat
          · simp [show a.toNat < c.toNat by omega]
          · by_cases hcb : c.toNat < b.toNat
            · simp [hbc, hcb] at h2
            · simp [show a.toNat < c.toNat by omega]
        · by_cases hba : b.toNat < a.toNat
          · simp [hab, hba] at h1
          · by_cases hbc : b.toNat < c.toNat
            · simp [show a.toNat < c.toNat by omega]
            · by_cases hcb : c.toNat < b.toNat
              · simp [hbc, hcb] at h2
              · have hac : ¬ a.toNat < c.toNat := by omega
                have hca : ¬ c.toNat < a.toNat := by omega
                simp only [if_neg hab, if_neg hba] at h1
                simp only [if_neg hbc, if_neg hcb] at h2
                simp only [if_neg hac, if_neg hca]
                exact ih h1 h2

theorem sorted_insertionSort_strLe (l : List String) :
    List.Sorted strLe (List.insertionSort strLe l) := by
  haveI : IsTotal String strLe := ⟨fun a b => charListLe_total a.data b.data⟩
  haveI : IsTrans String strLe := ⟨fun _ _ _ => charListLe_trans⟩
  exact List.sorted_insertionSort strLe l

theorem taskInv_applyTaskOp (op : TaskOp) (t : Task) (h : taskInv t) :
    taskInv (applyTaskOp op t) := by
  cases op with
  | start now =>
    simp only [applyTaskOp, Task.start]
    split <;> simp_all [taskInv]
  | pause now =>
    simp only [applyTaskOp, Task.pause]
    cases ht : t.start_time <;> simp_all [taskInv]
  | resume now =>
    simp only [applyTaskOp, Task.resume]
    split <;> simp_all [taskInv]
  | toggleComplete now =>
    simp only [applyTaskOp, Task.toggle_complete]
    split
    · simp_all [taskInv, Task.is_completed]
    · split <;> simp [taskInv, Task.pause]
  | moveToFolder f => simpa [taskInv, applyTaskOp] using h

theorem taskInv_runOps (ops : List TaskOp) (t : Task) (h : taskInv t) :
    taskInv (runOps ops t) := by
  induction ops generalizing t with
  | nil => exact h
  | cons op ops ih => exact ih _ (taskInv_applyTaskOp op t h)

theorem clear_folder_tasks (s : WorkTimer) (folder_name : String) :
    (clear_folder s folder_name).tasks =
      s.tasks.filter (fun p => !(p.2.folder == some folder_name)) := by
  simp only [clear_folder]
  split <;> simp [save_tasks, save_folder_styles]

theorem clear_folder_files (s : WorkTimer) (folder_name : String) :
    (clear_folder s folder_name).files =
      (s.tasks.filter (fun p => p.2.folder == some folder_name)).foldl
        (fun fs p => fs.erase (sanitize_filename p.2.description ++ ".csv"))
        (s.files.erase ("folder_" ++ sanitize_filename folder_name ++ ".csv")) := by
  simp only [clear_folder]
  split <;> simp [save_tasks, save_folder_styles]

theorem clear_folder_folders (s : WorkTimer) (folder_name : String)
    (hf : folder_name ∈ s.folders) :
    (clear_folder s folder_name).folders = s.folders.erase folder_name := by
  rcases position_eq_some_of_mem hf with ⟨i, hi⟩
  simp only [clear_folder, hi]
  simp [save_tasks, save_folder_styles, eraseIdx_position_eq_erase hi]

theorem clear_folder_styles (s : WorkTimer) (folder_name : String)
    (hf : folder_name ∈ s.folders) :
    (clear_folder s folder_name).folder_styles = assocRemove folder_name s.folder_styles := by
  rcases position_eq_some_of_mem hf with ⟨i, hi⟩
  simp only [clear_folder, hi]
  simp [save_tasks, save_folder_styles]

theorem add_folder_cond_true (s : WorkTimer) (name : String)
    (h1 : name ≠ "") (h2 : name ∉ s.folders) :
    (!(name == "") && !(s.folders.contains name)) = true := by
  have e1 : (name == "") = false := beq_eq_false_iff_ne.mpr h1
  have e2 : s.folders.contains name = false := by simpa using h2
  rw [e1, e2]
  rfl

theorem add_folder_noop (s : WorkTimer) (name : String)
    (h : name = "" ∨ name ∈ s.folders) : add_folder s name = s := by
  have hc : (!(name == "") && !(s.folders.contains name)) = false := by
    rcases h with h | h
    · subst h
      rfl
    · have e2 : s.folders.contains name = true := by simpa using h
      rw [e2]
      simp
  unfold add_folder
  rw [hc]
  simp

theorem add_folder_folders (s : WorkTimer) (name : String)
    (h1 : name ≠ "") (h2 : name ∉ s.folders) :
    (add_folder s name).folders = List.insertionSort strLe (s.folders ++ [name]) := by
  unfold add_folder
  rw [add_folder_cond_true s name h1 h2]
  simp [save_tasks, save_folder_styles]

theorem add_folder_styles (s : WorkTimer) (name : String)
    (h1 : name ≠ "") (h2 : name ∉ s.folders) :
    (add_folder s name).folder_styles = assocInsert name ⟨name⟩ s.folder_styles := by
  unfold add_folder
  rw [add_folder_cond_true s name h1 h2]
  simp [save_tasks, save_folder_styles]

theorem add_folder_tasks (s : WorkTimer) (name : String) :
    (add_folder s name).tasks = s.tasks := by
  unfold add_folder
  split
  · simp [save_tasks, save_folder_styles]
  · rfl

theorem export_status_ne_completed (t : Task) : t.export_status ≠ "Completed" := by
  unfold Task.export_status
  split
  · decide
  · split <;> decide

/-! The claims. -/

/-- C1: starting from a freshly created task placed in any folder, no sequence
of start / pause / resume / toggle-complete / move-to-folder operations ever
reaches a state in which `start_time` is present and `is_paused` is true
simultaneously: the running and paused indicators are mutually exclusive in
every reachable state. -/
theorem task_never_running_and_paused (id d : String) (f : Option String)
    (ops : List TaskOp) :
    ((runOps ops { Task.new id d with folder := f }).start_time.isSome
      && (runOps ops { Task.new id d with folder := f }).is_paused) = false :=
  taskInv_runOps ops _ (by simp [taskInv, Task.new])

/-- C2: `start` changes the state only from Idle (`start_time` absent,
`is_paused` false) and then sets `start_time := now`; `pause` changes the
state only when Running; `resume` only when Paused; in every other state each
operation leaves the task completely unchanged — in particular `start` is a
no-op from Paused. -/
theorem timer_transitions_guarded (t : Task) (now : Int) :
    (t.start_time = none → t.is_paused = false →
       Task.start t now = { t with start_time := some now }) ∧
    (t.start_time.isSome = true ∨ t.is_paused = true → Task.start t now = t) ∧
    (∀ u, t.start_time = some u →
       Task.pause t now =
         { t with total_duration := t.total_duration + (now - u),
                  start_time := none, is_paused := true }) ∧
    (t.start_time = none → Task.pause t now = t) ∧
    (t.is_paused = true →
       Task.resume t now = { t with start_time := some now, is_paused := false }) ∧
    (t.is_paused = false → Task.resume t now = t) := by
  refine ⟨?_, ?_, ?_, ?_, ?_, ?_⟩
  · intro h1 h2; simp [Task.start, h1, h2]
  · intro h
    rcases h with h | h
    · have hn : t.start_time.isNone = false := by
        cases ht : t.start_time <;> simp_all
      simp [Task.start, hn]
    · simp [Task.start, h]
  · intro u hu; simp [Task.pause, hu]
  · intro h; simp [Task.pause, h]
  · intro h; simp [Task.resume, h]
  · intro h; simp [Task.resume, h]

theorem timer_transitions_guarded_witness :
    Task.start tIdle 5 = { tIdle with start_time := some 5 } ∧
    Task.pause tRunning 7 =
      { tRunning with total_duration := tRunning.total_duration + (7 - 3),
                      start_time := none, is_paused := true } ∧
    Task.start tPaused 9 = tPaused ∧
    Task.resume tPaused 9 = { tPaused with start_time := some 9, is_paused := false } :=
  ⟨(timer_transitions_guarded tIdle 5).1 rfl rfl,
   (timer_transitions_guarded tRunning 7).2.2.1 3 rfl,
   (timer_transitions_guarded tPaused 9).2.1 (Or.inr rfl),
   (timer_transitions_guarded tPaused 9).2.2.2.2.1 rfl⟩

/-- C3 counterexample: with the wall-clock readings supplied as inputs, a
`pause` whose `now` precedes the recorded `start_time` makes `total_duration`
decrease, and even become negative: start at time 10, pause at time 0. -/
theorem total_duration_decreases_on_clock_rollback :
    (runOps [TaskOp.start 10, TaskOp.pause 0] (Task.new "t1" "alpha")).total_duration < 0 ∧
    (runOps [TaskOp.start 10, TaskOp.pause 0] (Task.new "t1" "alpha")).total_duration <
      (runOps [TaskOp.start 10] (Task.new "t1" "alpha")).total_duration := by
  decide

/-- C3 amended: provided every `now` fed to a transition that reads the
recorded `start_time` (pause, toggle-complete) is at least that start time —
true of a monotone wall clock — `total_duration` starts non-negative, never
decreases across start / pause / resume / toggle-complete / move, and stays
non-negative. -/
theorem total_duration_monotone_under_monotone_clock (t : Task) (op : TaskOp)
    (h0 : 0 ≤ t.total_duration) (hop : opNowOK op t) :
    t.total_duration ≤ (applyTaskOp op t).total_duration ∧
    0 ≤ (applyTaskOp op t).total_duration := by
  have key : t.total_duration ≤ (applyTaskOp op t).total_duration := by
    cases op with
    | start now =>
      simp only [applyTaskOp, Task.start]
      split <;> simp
    | pause now =>
      have hop' : ∀ u, t.start_time = some u → u ≤ now := hop
      simp only [applyTaskOp, Task.pause]
      cases ht : t.start_time with
      | none => simp
      | some u =>
        have := hop' u ht
        simp only []
        omega
    | resume now =>
      simp only [applyTaskOp, Task.resume]
      split <;> simp
    | toggleComplete now =>
      have hop' : ∀ u, t.start_time = some u → u ≤ now := hop
      simp only [applyTaskOp, Task.toggle_complete]
      split
      · simp
      · cases ht : t.start_time with
        | none => simp [Task.pause, ht]
        | some u =>
          have := hop' u ht
          simp only [Task.pause, ht, Option.isSome_some, if_true]
          omega
    | moveToFolder f => simp [applyTaskOp]
  exact ⟨key, le_trans h0 key⟩

theorem total_duration_monotone_under_monotone_clock_witness :
    tRunning.total_duration ≤ (applyTaskOp (TaskOp.pause 7) tRunning).total_duration ∧
    0 ≤ (applyTaskOp (TaskOp.pause 7) tRunning).total_duration :=
  total_duration_monotone_under_monotone_clock tRunning (TaskOp.pause 7) (by decide)
    (by intro u hu
        have : (3 : Int) = u := by
          simpa [tRunning, tIdle, Task.new] using hu
        omega)

/-- C4 counterexample: `tDone` satisfies the claimed Completed condition
(`total_duration > 0`, not running, not paused), yet the data row written for
it by the per-task CSV export carries status `"Stopped"`, not `"Completed"`
(no export function ever writes `"Completed"`). -/
theorem export_status_stopped_not_completed :
    0 < tDone.total_duration ∧ tDone.start_time = none ∧ tDone.is_paused = false ∧
    (export_task_to_csv_rows tDone 0).getD 1 [] = tDone.csv_row 0 ∧
    (tDone.csv_row 0).getD 3 "" = "Stopped" ∧
    ("Stopped" : String) ≠ "Completed" := by
  refine ⟨by decide, rfl, rfl, rfl, by decide, by decide⟩

/-- C4 amended: in every data row written by any of the three CSV exports the
Status field is `"Running"` when `start_time` is present, otherwise
`"Paused"` when `is_paused`, otherwise `"Stopped"`; the string `"Completed"`
is never written. -/
theorem export_status_never_completed (s : WorkTimer) (t : Task)
    (folder_name : String) (now : Int) :
    (∀ row, row ∈ (export_to_csv_rows s now).tail →
       row.getD 3 "" ≠ "Completed" ∧
       ∃ p, p ∈ s.tasks ∧ row.getD 3 "" =
         (if p.2.start_time.isSome then "Running"
          else if p.2.is_paused then "Paused" else "Stopped")) ∧
    (∀ row, row ∈ (export_folder_to_csv_rows s folder_name now).tail →
       row.getD 3 "" ≠ "Completed" ∧
       ∃ p, p ∈ s.tasks ∧ p.2.folder = some folder_name ∧ row.getD 3 "" =
         (if p.2.start_time.isSome then "Running"
          else if p.2.is_paused then "Paused" else "Stopped")) ∧
    ((export_task_to_csv_rows t now).getD 1 []).getD 3 "" ≠ "Completed" ∧
    ((export_task_to_csv_rows t now).getD 1 []).getD 3 "" =
      (if t.start_time.isSome then "Running"
       else if t.is_paused then "Paused" else "Stopped") := by
  refine ⟨?_, ?_, ?_, ?_⟩
  · intro row hrow
    rcases List.mem_map.mp hrow with ⟨p, hp, hrw⟩
    subst hrw
    exact ⟨export_status_ne_completed p.2, p, hp, rfl⟩
  · intro row hrow
    rcases List.mem_map.mp hrow with ⟨p, hpf, hrw⟩
    subst hrw
    rcases List.mem_filter.mp hpf with ⟨hp, hfold⟩
    exact ⟨export_status_ne_completed p.2, p, hp, beq_iff_eq.mp hfold, rfl⟩
  · exact export_status_ne_completed t
  · rfl

theorem export_status_never_completed_witness :
    ((export_task_to_csv_rows tPaused 0).getD 1 []).getD 3 "" ≠ "Completed" ∧
    (tPaused.csv_row 0).getD 3 "" ≠ "Completed" :=
  ⟨(export_status_never_completed sample tPaused "Work" 0).2.2.1,
   ((export_status_never_completed sample tPaused "Work" 0).1
      (tPaused.csv_row 0) (by decide)).1⟩

/-- C5: for a folder name present in a duplicate-free registry, deleting the
folder (`clear_folder`) removes from the task collection exactly the tasks
whose folder equals `Some folder_name`, leaves every other task unchanged,
and removes the folder (with its style record) from the ordered folder list
while leaving all other names and their relative order unchanged. -/
theorem clear_folder_removes_exactly_matching_tasks (s : WorkTimer)
    (folder_name : String) (hf : folder_name ∈ s.folders) (hnd : s.folders.Nodup) :
    (clear_folder s folder_name).tasks =
      s.tasks.filter (fun p => !(p.2.folder == some folder_name)) ∧
    (∀ p, p ∈ (clear_folder s folder_name).tasks ↔
       p ∈ s.tasks ∧ p.2.folder ≠ some folder_name) ∧
    (clear_folder s folder_name).folders = s.folders.erase folder_name ∧
    folder_name ∉ (clear_folder s folder_name).folders ∧
    List.Sublist (clear_folder s folder_name).folders s.folders ∧
    (∀ g, g ≠ folder_name →
       (g ∈ (clear_folder s folder_name).folders ↔ g ∈ s.folders)) ∧
    (∀ q, q ∈ (clear_folder s folder_name).folder_styles → q.1 ≠ folder_name) ∧
    (∀ q, q ∈ s.folder_styles → q.1 ≠ folder_name →
       q ∈ (clear_folder s folder_name).folder_styles) := by
  have htk := clear_folder_tasks s folder_name
  have hfd := clear_folder_folders s folder_name hf
  have hst := clear_folder_styles s folder_name hf
  refine ⟨htk, ?_, hfd, ?_, ?_, ?_, ?_, ?_⟩
  · intro p
    rw [htk]
    simp [List.mem_filter]
  · rw [hfd]
    intro hmem
    exact ((List.Nodup.mem_erase_iff hnd).mp hmem).1 rfl
  · rw [hfd]
    exact List.erase_sublist _ _
  · intro g hg
    rw [hfd]
    exact List.mem_erase_of_ne hg
  · intro q hq
    rw [hst] at hq
    rcases List.mem_filter.mp hq with ⟨_, hq2⟩
    simpa using hq2
  · intro q hq hne
    rw [hst]
    exact List.mem_filter.mpr ⟨hq, by simpa using hne⟩

theorem clear_folder_removes_exactly_matching_tasks_witness :
    (clear_folder sample "Work").folders = sample.folders.erase "Work" :=
  (clear_folder_removes_exactly_matching_tasks sample "Work"
    (by decide) (by decide)).2.2.1

/-- C6 counterexample: after the "clear folder" command the folder's name is
gone from the ordered folder list — the command does not keep the folder. -/
theorem clear_folder_drops_folder_from_list :
    "Work" ∈ sample.folders ∧ "Work" ∉ (clear_folder sample "Work").folders := by
  decide

/-- C6 amended: the "clear folder" command removes the folder's tasks from
the task collection and also removes the folder itself: its name is no longer
present in the ordered folder list afterwards. -/
theorem clear_folder_removes_folder_and_its_tasks (s : WorkTimer)
    (folder_name : String) (hf : folder_name ∈ s.folders) (hnd : s.folders.Nodup) :
    (clear_folder s folder_name).tasks =
      s.tasks.filter (fun p => !(p.2.folder == some folder_name)) ∧
    (clear_folder s folder_name).folders = s.folders.erase folder_name ∧
    folder_name ∉ (clear_folder s folder_name).folders := by
  refine ⟨clear_folder_tasks s folder_name, clear_folder_folders s folder_name hf, ?_⟩
  rw [clear_folder_folders s folder_name hf]
  intro hmem
  exact ((List.Nodup.mem_erase_iff hnd).mp hmem).1 rfl

theorem clear_folder_removes_folder_and_its_tasks_witness :
    "Home" ∉ (clear_folder sample "Home").folders :=
  (clear_folder_removes_folder_and_its_tasks sample "Home" (by decide) (by decide)).2.2

/-- C7: `add_folder` leaves the registry, the style map and the task
collection unchanged when the name is empty or already present; otherwise it
inserts the name, creates its style record, and the resulting folder list is
alphabetically sorted (by `strLe`) and duplicate-free — so any manual reorder
is discarded by the next add. -/
theorem add_folder_sorts_and_dedups (s : WorkTimer) (name : String)
    (hnd : s.folders.Nodup) :
    ((name = "" ∨ name ∈ s.folders) →
       (add_folder s name).folders = s.folders ∧
       (add_folder s name).folder_styles = s.folder_styles ∧
       (add_folder s name).tasks = s.tasks) ∧
    (name ≠ "" → name ∉ s.folders →
       List.Sorted strLe (add_folder s name).folders ∧
       (add_folder s name).folders.Nodup ∧
       (∀ g, g ∈ (add_folder s name).folders ↔ g ∈ s.folders ∨ g = name) ∧
       List.lookup name (add_folder s name).folder_styles = some ⟨name⟩ ∧
       (add_folder s name).tasks = s.tasks) := by
  constructor
  · intro h
    rw [add_folder_noop s name h]
    exact ⟨rfl, rfl, rfl⟩
  · intro h1 h2
    have hfd := add_folder_folders s name h1 h2
    have hst := add_folder_styles s name h1 h2
    have hperm : (add_folder s name).folders.Perm (s.folders ++ [name]) := by
      rw [hfd]; exact List.perm_insertionSort strLe _
    refine ⟨?_, ?_, ?_, ?_, add_folder_tasks s name⟩
    · rw [hfd]; exact sorted_insertionSort_strLe _
    · refine hperm.symm.nodup ?_
      rw [List.nodup_append]
      refine ⟨hnd, List.nodup_singleton name, ?_⟩
      intro a ha hb
      rw [List.mem_singleton] at hb
      exact h2 (hb ▸ ha)
    · intro g
      rw [hperm.mem_iff]
      simp
    · rw [hst]
      simp [assocInsert, List.lookup]

theorem add_folder_sorts_and_dedups_witness :
    List.Sorted strLe (add_folder sample "Cafe").folders ∧
    (add_folder sample "Cafe").folders.Nodup :=
  ⟨((add_folder_sorts_and_dedups sample "Cafe" (by decide)).2 (by decide) (by decide)).1,
   ((add_folder_sorts_and_dedups sample "Cafe" (by decide)).2 (by decide) (by decide)).2.1⟩

/-- C8: every store-level mutating command (create task, delete task, move
task, folder add, folder delete/clear on a registered folder, clear-all,
reorder) ends in a save, so whenever the durable snapshot of the task
collection and the folder list matched the in-memory state before the
command, it still matches when the command returns. -/
theorem mutating_ops_resync_snapshot (s : WorkTimer) (op : StoreOp) (hs : synced s)
    (hclear : ∀ f, op = StoreOp.clearFolder f → f ∈ s.folders) :
    synced (applyStoreOp op s) := by
  cases op with
  | createTask id d =>
    exact ⟨rfl, rfl⟩
  | deleteTask id =>
    exact ⟨rfl, rfl⟩
  | moveTask id f =>
    simp only [applyStoreOp, move_task_to_folder]
    split
    · exact ⟨rfl, rfl⟩
    · exact hs
  | addFolder n =>
    simp only [applyStoreOp, add_folder]
    split
    · exact ⟨rfl, rfl⟩
    · exact hs
  | clearFolder n =>
    have hf : n ∈ s.folders := hclear n rfl
    rcases position_eq_some_of_mem hf with ⟨i, hi⟩
    simp only [applyStoreOp, clear_folder, hi]
    exact ⟨rfl, rfl⟩
  | clearAllTasks =>
    exact ⟨rfl, rfl⟩
  | clearAllFolders =>
    exact ⟨rfl, rfl⟩
  | reorderFolder n i =>
    simp only [applyStoreOp, reorder_folder]
    split
    · exact ⟨rfl, rfl⟩
    · exact hs

theorem mutating_ops_resync_snapshot_witness :
    synced (applyStoreOp (StoreOp.clearFolder "Work") sample) :=
  mutating_ops_resync_snapshot sample (StoreOp.clearFolder "Work") ⟨rfl, rfl⟩
    (by intro f hf
        injection hf with h
        subst h
        decide)

/-- C9 counterexample: deleting the single task `t3` (description `"gamma"`,
whose per-task export file `gamma.csv` exists in the working directory)
removes the task but leaves `gamma.csv` untouched — the confirmed-delete
branch performs no file deletion at all. -/
theorem delete_task_keeps_export_file :
    ("t3", tDone) ∈ sFile.tasks ∧
    sanitize_filename tDone.description ++ ".csv" = "gamma.csv" ∧
    "gamma.csv" ∈ sFile.files ∧
    (delete_task sFile "t3").tasks = [] ∧
    "gamma.csv" ∈ (delete_task sFile "t3").files := by
  decide

/-- C9 amended: deleting a single task removes exactly that task from the
collection (every other task is untouched) and saves the snapshot, but it
does not delete the task's per-task export CSV: the working directory is left
completely unchanged. -/
theorem delete_task_removes_only_that_task (s : WorkTimer) (task_id : String) :
    (delete_task s task_id).tasks = s.tasks.filter (fun p => !(p.1 == task_id)) ∧
    (∀ p, p ∈ (delete_task s task_id).tasks ↔ p ∈ s.tasks ∧ p.1 ≠ task_id) ∧
    (delete_task s task_id).files = s.files ∧
    (delete_task s task_id).saved_tasks = (delete_task s task_id).tasks := by
  refine ⟨rfl, ?_, rfl, rfl⟩
  intro p
  show p ∈ s.tasks.filter (fun q => !(q.1 == task_id)) ↔ _
  simp [List.mem_filter]

/-- C10: `clear_all_tasks` empties the task collection (and its snapshot) and
deletes every file of the working directory whose name ends in `.csv` — a
file survives exactly when it was present before and does not end in `.csv`,
so unrelated CSV files are removed too. -/
theorem clear_all_tasks_removes_all_csv (s : WorkTimer) :
    (clear_all_tasks s).tasks = [] ∧
    (clear_all_tasks s).saved_tasks = [] ∧
    (∀ n, n ∈ (clear_all_tasks s).files ↔ n ∈ s.files ∧ endsWithCsv n = false) := by
  refine ⟨rfl, rfl, ?_⟩
  intro n
  show n ∈ (s.files.erase "work_timer_export.csv").filter (fun m => !(endsWithCsv m)) ↔ _
  constructor
  · intro h
    rcases List.mem_filter.mp h with ⟨h1, h2⟩
    exact ⟨(List.erase_sublist _ _).subset h1, by simpa using h2⟩
  · rintro ⟨h1, h2⟩
    refine List.mem_filter.mpr ⟨?_, by simp [h2]⟩
    have hne : n ≠ "work_timer_export.csv" := by
      intro he
      subst he
      rw [show endsWithCsv "work_timer_export.csv" = true from by decide] at h2
      cases h2
    exact (List.mem_erase_of_ne hne).mpr h1

end WorkTimerModel
